import Mathlib

/-!
Shallow embedding of the biography field extractor in `src/test.py`
(`parse_astronaut_profile` and its helpers), together with theorems that
settle the specification claims about it.

The Python extractor works by applying `re` patterns (each compiled with
`re.I | re.M`, except the comma/and splitter which uses default flags) to
the input text.  Every pattern of the source is embedded here as a bespoke
deterministic matcher over `List Char` that reproduces the behaviour of
Python's backtracking engine on that particular pattern: leftmost match
wins, alternatives are tried left to right, greedy quantifiers prefer the
longest repetition and lazy quantifiers the shortest, `^`/`$` anchor at
line boundaries (MULTILINE), `\s` may cross newlines, and `re.I` performs
ASCII case folding (the inputs of interest are ASCII).  Each matcher's doc
comment quotes the source pattern it embeds and records the backtracking
analysis that justifies the deterministic implementation.
-/

namespace Scraping

/-- ASCII whitespace recognised by Python's `\s` and `str.strip()`. -/
def pyWS (c : Char) : Bool :=
  c = ' ' || c = '\t' || c = '\n' || c = '\r' || c = Char.ofNat 11 || c = Char.ofNat 12

/-- Decimal digit test, Python's `[0-9]` / `\d` (ASCII). -/
def isDigitC (c : Char) : Bool :=
  '0' ≤ c && c ≤ '9'

/-- ASCII letter test, Python's `[A-Za-z]` (and `[A-Z]` under `re.I`). -/
def isAlphaC (c : Char) : Bool :=
  ('a' ≤ c && c ≤ 'z') || ('A' ≤ c && c ≤ 'Z')

/-- Word character for Python's `\b` boundary: `[A-Za-z0-9_]`. -/
def isWordC (c : Char) : Bool :=
  isAlphaC c || isDigitC c || c = '_'

/-- ASCII lower casing, used to embed `re.I` matching. -/
def lowerC (c : Char) : Char :=
  if 'A' ≤ c && c ≤ 'Z' then Char.ofNat (c.toNat + 32) else c

/-- The apostrophe character (inside the institution character class). -/
def aposC : Char := Char.ofNat 39

/-- Case-insensitive literal match: does `l` start with the (lower-case)
literal `pat`?  Returns the remainder after the literal. -/
def matchLitCI : List Char → List Char → Option (List Char)
  | [], l => some l
  | _ :: _, [] => none
  | p :: ps, c :: cs => if lowerC c = p then matchLitCI ps cs else none

/-- Case-sensitive literal match, returning the remainder. -/
def matchLit : List Char → List Char → Option (List Char)
  | [], l => some l
  | _ :: _, [] => none
  | p :: ps, c :: cs => if c = p then matchLit ps cs else none

/-- Python `str.strip()` on a character list: drop leading and trailing
characters satisfying `p`. -/
def stripList (p : Char → Bool) (l : List Char) : List Char :=
  ((l.dropWhile p).reverse.dropWhile p).reverse

/-- Python `str.strip()` (whitespace) on a `String`. -/
def pyStrip (s : String) : String :=
  ⟨stripList pyWS s.data⟩

/-- Python `str.strip(" .;:")` used by `_clean_commas_list`. -/
def stripPunct (s : String) : String :=
  ⟨stripList (fun c => c = ' ' || c = '.' || c = ';' || c = ':') s.data⟩

/-- Does position `i` start a line of `cs` (for `^` under `re.M`)? -/
def isLineStart (cs : List Char) (i : Nat) : Bool :=
  i = 0 || (cs.drop (i - 1)).head? = some '\n'

/-- Leftmost-match search: try the position matcher at `0, 1, …, n-1` in
order, as Python's `re.search` scans the subject. -/
def firstPos {α : Type} (n : Nat) (f : Nat → Option α) : Option α :=
  (List.range n).findSome? f

/-- Python `re.findall` scanning: walk positions left to right, emit each
match and resume at its end (all embedded patterns match non-empty text). -/
def findAllPos {α : Type} (n : Nat) (f : Nat → Option (α × Nat)) : List α :=
  ((List.range n).foldl
    (fun (st : List α × Nat) i =>
      if i < st.2 then st
      else
        match f i with
        | some (a, e) => (st.1 ++ [a], max e (i + 1))
        | none => st)
    ([], 0)).1

/-! ### Labelled-line matchers

`parse_astronaut_profile` extracts three labelled fields with
`_extract_first` on the patterns

  `^-+\s*Occupation\(s\):\s*([^\n]+)$`
  `^-+\s*Nationality:\s*([A-Za-z \-]+)$`
  `^-+\s*Time in space:\s*([^\n]+)$`

all with `re.I | re.M`.  The prefix `-+\s*LABEL` is deterministic: `-+`
greedily takes the hyphen run (the label starts with a letter and `\s`
never matches `-`, so giving hyphens back cannot help), `\s*` greedily
takes the following whitespace (which may include newlines), and the
label must follow.  The value group needs genuine backtracking into the
`\s*` before it, which `valueEOL` and `valueNat` implement by trying
whitespace-prefix lengths from longest to shortest, exactly as the
engine does. -/

/-- Group extraction for `\s*([^\n]+)$` applied to the text after the
label.  For a fixed split of the leading whitespace, `[^\n]+` is greedy
and its maximal run always ends at a newline or at the end of the
subject, where `$` (MULTILINE) succeeds; so for each whitespace length,
tried from longest to shortest, the attempt succeeds iff the run is
non-empty. -/
def valueEOL (l : List Char) : Option (List Char) :=
  let mw := (l.takeWhile pyWS).length
  (List.range (mw + 1)).findSome? fun k =>
    let g := (l.drop (mw - k)).takeWhile (fun c => c ≠ '\n')
    if g.isEmpty then none else some g

/-- Character class `[A-Za-z \-]` of the nationality pattern. -/
def natClass (c : Char) : Bool :=
  isAlphaC c || c = ' ' || c = '-'

/-- Group extraction for `\s*([A-Za-z \-]+)$` applied to the text after
`Nationality:`.  For a fixed whitespace split, `[A-Za-z \-]+` is greedy;
shrinking it can never help, because the character following any shorter
run is a class character, hence neither a newline nor the end of the
subject, so `$` fails there.  The attempt succeeds iff the maximal class
run is non-empty and is followed by a newline or the end. -/
def valueNat (l : List Char) : Option (List Char) :=
  let mw := (l.takeWhile pyWS).length
  (List.range (mw + 1)).findSome? fun k =>
    let r := l.drop (mw - k)
    let g := r.takeWhile natClass
    if g.isEmpty then none
    else
      match (r.drop g.length).head? with
      | none => some g
      | some c => if c = '\n' then some g else none

/-- Attempt of a labelled pattern `^-+\s*LABEL…` at position `i`:
`^` requires a line start, then the hyphen run, whitespace, the literal
label (case-insensitively) and the value group. -/
def labeledAt (label : List Char) (valueAt : List Char → Option (List Char))
    (cs : List Char) (i : Nat) : Option (List Char) :=
  if isLineStart cs i then
    let r := cs.drop i
    let hy := r.takeWhile (fun c => c = '-')
    if hy.isEmpty then none
    else
      match matchLitCI label ((r.drop hy.length).dropWhile pyWS) with
      | none => none
      | some rest => valueAt rest
  else none

/-- Embedding of `_extract_first(pattern, text)` for a labelled pattern:
leftmost match, group 1, `str.strip()` applied (source line 13). -/
def extractLabeled (label : List Char) (valueAt : List Char → Option (List Char))
    (text : String) : Option String :=
  (firstPos text.data.length (labeledAt label valueAt text.data)).map
    fun g => pyStrip ⟨g⟩

/-- Raw occupations line: `_extract_first(r"^-+\s*Occupation\(s\):\s*([^\n]+)$", text)`
(source line 145). -/
def occLine (text : String) : Option String :=
  extractLabeled "occupation(s):".data valueEOL text

/-- Nationality: `_extract_first(r"^-+\s*Nationality:\s*([A-Za-z \-]+)$", text)`
(source line 151). -/
def natLine (text : String) : Option String :=
  extractLabeled "nationality:".data valueNat text

/-- Time in space: `_extract_first(r"^-+\s*Time in space:\s*([^\n]+)$", text)`
(source line 154). -/
def tisLine (text : String) : Option String :=
  extractLabeled "time in space:".data valueEOL text

/-- Does any position of `text` carry the labelled-pattern prefix: a line
start, one or more hyphens, optional whitespace (possibly spanning line
breaks) and then the label?  This is the structural condition a labelled
extraction needs, independent of the value group. -/
def hyphenLabelOccurs (label : List Char) (text : String) : Bool :=
  (List.range text.data.length).any fun i =>
    let cs := text.data
    isLineStart cs i &&
      (let r := cs.drop i
       let hy := r.takeWhile (fun c => c = '-')
       !hy.isEmpty &&
         (matchLitCI label ((r.drop hy.length).dropWhile pyWS)).isSome)

/-! ### Dates, `datetime.strptime`, and `int()` -/

/-- A Python `datetime.date` value (year, month, day). -/
structure PyDate where
  year : Int
  month : Nat
  day : Nat
deriving DecidableEq

/-- Leap-year rule of the proleptic Gregorian calendar used by
`datetime`. -/
def isLeap (y : Int) : Bool :=
  y % 4 = 0 && (y % 100 ≠ 0 || y % 400 = 0)

/-- Days in a month, as enforced by the `datetime.date` constructor. -/
def daysInMonth (y : Int) (m : Nat) : Nat :=
  if m = 2 then (if isLeap y then 29 else 28)
  else if m = 4 || m = 6 || m = 9 || m = 11 then 30
  else 31

/-- Numeric value of a digit string. -/
def digitsVal (l : List Char) : Nat :=
  l.foldl (fun a c => a * 10 + (c.toNat - 48)) 0

/-- Construction `datetime.date(y, m, d)`: raises `ValueError` unless the
date is a valid proleptic Gregorian date with `MINYEAR ≤ y`. -/
def mkDate (y : Int) (m d : Nat) : Except Unit PyDate :=
  if 1 ≤ y && 1 ≤ m && m ≤ 12 && 1 ≤ d && d ≤ daysInMonth y m then
    Except.ok ⟨y, m, d⟩
  else Except.error ()

/-- Take exactly `n` characters, all decimal digits (a `\d{n}` item). -/
def pFixedDigits (n : Nat) (l : List Char) : Option (List Char × List Char) :=
  let t := l.take n
  if t.length = n && t.all isDigitC then some (t, l.drop n) else none

/-- Expect one or more whitespace characters (a run of whitespace in a
`strptime` format string matches `\s+`). -/
def pWS1 (l : List Char) : Option (List Char) :=
  let w := l.takeWhile pyWS
  if w.isEmpty then none else some (l.drop w.length)

/-- Month names, lower-cased, in calendar order (the source's `MONTHS`). -/
def monthNames : List (List Char) :=
  ["january".data, "february".data, "march".data, "april".data,
   "may".data, "june".data, "july".data, "august".data,
   "september".data, "october".data, "november".data, "december".data]

/-- Match a full month name case-insensitively (the `%B` directive; full
month names are pairwise non-prefixing, so the match is unique). -/
def pMonth (l : List Char) : Option (Nat × Nat × List Char) :=
  (List.range 12).findSome? fun j =>
    match monthNames.get? j with
    | none => none
    | some nm =>
      match matchLitCI nm l with
      | some rest => some (j + 1, nm.length, rest)
      | none => none

/-- Day field of `%d`: its regex `(3[01]|[12]\d|0[1-9]|[1-9])` followed by
a non-digit accepts exactly a run of one digit with value 1–9 or two
digits with value 1–31. -/
def pDay (l : List Char) : Option (Nat × List Char) :=
  let ds := l.takeWhile isDigitC
  let v := digitsVal ds
  if (ds.length = 1 && 1 ≤ v) || (ds.length = 2 && 1 ≤ v && v ≤ 31) then
    some (v, l.drop ds.length)
  else none

/-- `datetime.strptime(s, "%Y-%m-%d").date()`: four digits, `-`, two
digits, `-`, two digits, nothing left over; the two-digit `%m` regex
accepts exactly 01–12, `%d` accepts 01–31, then the date constructor
validates.  Returns `Except.error` for Python's `ValueError`. -/
def stpIso (s : String) : Except Unit PyDate :=
  match pFixedDigits 4 s.data with
  | none => Except.error ()
  | some (ys, r1) =>
    match r1 with
    | '-' :: r2 =>
      match pFixedDigits 2 r2 with
      | none => Except.error ()
      | some (ms, r3) =>
        match r3 with
        | '-' :: r4 =>
          match pFixedDigits 2 r4 with
          | none => Except.error ()
          | some (ds, r5) =>
            if r5.isEmpty && 1 ≤ digitsVal ms && digitsVal ms ≤ 12
                && 1 ≤ digitsVal ds && digitsVal ds ≤ 31 then
              mkDate (Int.ofNat (digitsVal ys)) (digitsVal ms) (digitsVal ds)
            else Except.error ()
        | _ => Except.error ()
    | _ => Except.error ()

/-- `datetime.strptime(s, "%B %d, %Y").date()`: month name, whitespace,
day, comma, whitespace, four-digit year, nothing left over. -/
def stpBMDY (s : String) : Except Unit PyDate :=
  match pMonth s.data with
  | none => Except.error ()
  | some (m, _, r1) =>
    match pWS1 r1 with
    | none => Except.error ()
    | some r2 =>
      match pDay r2 with
      | none => Except.error ()
      | some (d, r3) =>
        match r3 with
        | ',' :: r4 =>
          match pWS1 r4 with
          | none => Except.error ()
          | some r5 =>
            match pFixedDigits 4 r5 with
            | some (ys, []) => mkDate (Int.ofNat (digitsVal ys)) m d
            | _ => Except.error ()
        | _ => Except.error ()

/-- `datetime.strptime(s, "%d %B %Y").date()`: day, whitespace, month
name, whitespace, four-digit year, nothing left over. -/
def stpDMY (s : String) : Except Unit PyDate :=
  match pDay s.data with
  | none => Except.error ()
  | some (d, r1) =>
    match pWS1 r1 with
    | none => Except.error ()
    | some r2 =>
      match pMonth r2 with
      | none => Except.error ()
      | some (m, _, r3) =>
        match pWS1 r3 with
        | none => Except.error ()
        | some r4 =>
          match pFixedDigits 4 r4 with
          | some (ys, []) => mkDate (Int.ofNat (digitsVal ys)) m d
          | _ => Except.error ()

/-- Python `int(s)` on a string: optional surrounding whitespace, optional
sign, then one or more digits; raises `ValueError` otherwise.  (Digit
group separators are not modelled; every call site receives a pure digit
string produced by a `\d`-class match.) -/
def pyIntE (s : String) : Except Unit Int :=
  let t := stripList pyWS s.data
  let sd : Int × List Char :=
    match t with
    | c :: r => if c = '+' then (1, r) else if c = '-' then (-1, r) else (1, t)
    | [] => (1, [])
  if sd.2.isEmpty || !(sd.2.all isDigitC) then Except.error ()
  else Except.ok (sd.1 * Int.ofNat (digitsVal sd.2))

/-! ### Birth-date and age matchers -/

/-- Attempt of `Born:\s*\(\s*(\d{4}-\d{2}-\d{2})\s*\)` (re.I|re.M) at
position `i`.  All quantifiers here are deterministic: each `\s*` is
followed by a non-whitespace requirement and `\d{k}` is a fixed count. -/
def bornIsoAt (cs : List Char) (i : Nat) : Option (List Char) :=
  match matchLitCI "born:".data (cs.drop i) with
  | none => none
  | some r0 =>
    match (r0.dropWhile pyWS) with
    | '(' :: r1 =>
      match pFixedDigits 4 (r1.dropWhile pyWS) with
      | none => none
      | some (y4, r2) =>
        match r2 with
        | '-' :: r3 =>
          match pFixedDigits 2 r3 with
          | none => none
          | some (m2, r4) =>
            match r4 with
            | '-' :: r5 =>
              match pFixedDigits 2 r5 with
              | none => none
              | some (d2, r6) =>
                match (r6.dropWhile pyWS) with
                | ')' :: _ => some (y4 ++ ['-'] ++ m2 ++ ['-'] ++ d2)
                | _ => none
            | _ => none
        | _ => none
    | _ => none

/-- Group 1 of the first `Born: (…)` ISO match, stripped
(`_extract_first`, source line 33). -/
def isoRaw (text : String) : Option String :=
  (firstPos text.data.length (bornIsoAt text.data)).map fun g => pyStrip ⟨g⟩

/-- Attempt of the source's second birth-date pattern at position `i`.
The pattern is built as `rf"({MONTHS}\s+\d{{1,2}},\s+\d{{4}})"`, i.e.

  `(January|February|…|November|December\s+\d{1,2},\s+\d{4})`

the `MONTHS` alternation is spliced in unparenthesized, so the first
eleven alternatives are bare month names and only the `December`
alternative carries the day/year tail.  Alternatives are tried in that
order at each position.  In the tail, `\d{1,2}` greedily tries two digits
then one, each time requiring the following comma. -/
def mdyAt (cs : List Char) (i : Nat) : Option (List Char) :=
  let r := cs.drop i
  match (List.range 11).findSome? (fun j =>
      match monthNames.get? j with
      | none => none
      | some nm =>
        match matchLitCI nm r with
        | some _ => some (r.take nm.length)
        | none => none) with
  | some g => some g
  | none =>
    match matchLitCI "december".data r with
    | none => none
    | some r1 =>
      let w1 := (r1.takeWhile pyWS).length
      if w1 = 0 then none
      else
        let r2 := r1.drop w1
        let ds := r2.takeWhile isDigitC
        let tryLen : Nat → Option (List Char) := fun k =>
          if k ≤ ds.length && (r2.drop k).head? = some ',' then
            let r3 := (r2.drop (k + 1))
            let w2 := (r3.takeWhile pyWS).length
            if w2 = 0 then none
            else
              match pFixedDigits 4 (r3.drop w2) with
              | some _ => some (r.take (8 + w1 + k + 1 + w2 + 4))
              | none => none
          else none
        match tryLen 2 with
        | some g => some g
        | none => tryLen 1

/-- Group 1 of the first match of the second birth-date pattern,
stripped (`_extract_first`, source line 40). -/
def mdyRaw (text : String) : Option String :=
  (firstPos text.data.length (mdyAt text.data)).map fun g => pyStrip ⟨g⟩

/-- Attempt of `(\d{1,2}\s+(?:January|…|December)\s+\d{4})` (re.I|re.M)
at position `i`: here the month alternation is correctly grouped.
`\d{1,2}` greedily tries two digits then one. -/
def dmyAt (cs : List Char) (i : Nat) : Option (List Char) :=
  let r := cs.drop i
  let ds := r.takeWhile isDigitC
  let tryLen : Nat → Option (List Char) := fun k =>
    if k = 0 || ds.length < k then none
    else
      let r1 := r.drop k
      let w1 := (r1.takeWhile pyWS).length
      if w1 = 0 then none
      else
        match pMonth (r1.drop w1) with
        | none => none
        | some (_, mlen, r2) =>
          let w2 := (r2.takeWhile pyWS).length
          if w2 = 0 then none
          else
            match pFixedDigits 4 (r2.drop w2) with
            | some _ => some (r.take (k + w1 + mlen + w2 + 4))
            | none => none
  match tryLen 2 with
  | some g => some g
  | none => tryLen 1

/-- Group 1 of the first `D Month YYYY` match, stripped
(`_extract_first`, source line 47). -/
def dmyRaw (text : String) : Option String :=
  (firstPos text.data.length (dmyAt text.data)).map fun g => pyStrip ⟨g⟩

/-- Embedding of `_parse_birthdate` (source lines 23–53): try the ISO
pattern, then `Month D, YYYY`, then `D Month YYYY`; a `strptime` failure
(`except ValueError: pass`) falls through to the next pattern. -/
def parseBirthdate (text : String) : Option PyDate :=
  let step3 : Option PyDate :=
    match dmyRaw text with
    | some s => (stpDMY s).toOption
    | none => none
  let step2 : Option PyDate :=
    match mdyRaw text with
    | some s =>
      match stpBMDY s with
      | Except.ok d => some d
      | Except.error _ => step3
    | none => step3
  match isoRaw text with
  | some s =>
    match stpIso s with
    | Except.ok d => some d
    | Except.error _ => step2
  | none => step2

/-- Attempt of `\(age\s*([0-9]{1,3})\)` (re.I|re.M) at position `i`:
after `(age` and optional whitespace, the greedy `[0-9]{1,3}` succeeds
exactly when the digit run has length 1–3 and is followed by `)` (with a
longer run, every shorter prefix is followed by a digit, not `)`). -/
def ageAt (cs : List Char) (i : Nat) : Option (List Char) :=
  match matchLitCI "(age".data (cs.drop i) with
  | none => none
  | some r =>
    let r2 := r.dropWhile pyWS
    let ds := r2.takeWhile isDigitC
    if 1 ≤ ds.length && ds.length ≤ 3 && (r2.drop ds.length).head? = some ')' then
      some ds
    else none

/-- Group 1 of the first `(age N)` match, stripped (`_extract_first`,
source line 57). -/
def ageRaw (text : String) : Option String :=
  (firstPos text.data.length (ageAt text.data)).map fun g => pyStrip ⟨g⟩

/-- Whole-years age computation of `_parse_age` (source line 66):
`today.year - birth.year - ((today.month, today.day) < (birth.month, birth.day))`. -/
def computeAge (today birth : PyDate) : Int :=
  today.year - birth.year -
    (if today.month < birth.month ∨ (today.month = birth.month ∧ today.day < birth.day)
     then 1 else 0)

/-- Embedding of `_parse_age` (source lines 55–68): prefer the explicit
`(age N)` annotation (its `int()` conversion is wrapped in
`try/except ValueError`, falling through on failure); otherwise compute
from the birth date; otherwise `None`. -/
def parseAge (text : String) (birth : Option PyDate) (today : PyDate) : Option Int :=
  match ageRaw text with
  | some s =>
    match pyIntE s with
    | Except.ok n => some n
    | Except.error _ => birth.map (computeAge today)
  | none => birth.map (computeAge today)

/-! ### Degrees and education (`_parse_degrees_and_education`) -/

/-- Does `pat` occur (case-insensitively) anywhere in `l`? -/
def hasCI (pat : List Char) (l : List Char) : Bool :=
  (List.range l.length).any fun j => (matchLitCI pat (l.drop j)).isSome

/-- Attempt, at position `i`, of the candidate-scan pattern

  `^\s*-\s*(?:Revin|He|She)??.*?(graduated|post-graduate|qualified as).*?$`

(re.I|re.M, `re.findall`, source line 81).  `^` needs a line start; the
greedy `\s*-\s*` runs are deterministic (whitespace may span line
breaks); the lazy `(?:Revin|He|She)??` is skipped first and can never
help, since `.*?` also covers those words; `.` does not match `\n`, so
the lazy `.*?` finds the earliest trigger on the line where the
whitespace run ended, with the three alternatives tried in order at each
position; `.*?$` then ends the match at that line's end.  Note that the
pattern has one group, so `re.findall` returns the **trigger word**, not
the line. -/
def triggerAt (cs : List Char) (i : Nat) : Option (List Char × Nat) :=
  if isLineStart cs i then
    let r := cs.drop i
    let w0 := (r.takeWhile pyWS).length
    match (r.drop w0).head? with
    | some '-' =>
      let p := w0 + 1 + ((r.drop (w0 + 1)).takeWhile pyWS).length
      let line := (r.drop p).takeWhile (fun c => c ≠ '\n')
      match firstPos line.length (fun j =>
          ["graduated".data, "post-graduate".data, "qualified as".data].findSome?
            fun t =>
              match matchLitCI t (line.drop j) with
              | some _ => some ((line.drop j).take t.length)
              | none => none) with
      | some g => some (g, i + p + line.length)
      | none => none
    | _ => none
  else none

/-- `edu_lines` (source lines 80–83): the stripped group-1 results, i.e.
the trigger words. -/
def eduLines (text : String) : List String :=
  (findAllPos text.data.length (triggerAt text.data)).map fun g => pyStrip ⟨g⟩

/-- Attempt, at position `i`, of the education-section pattern

  `^\s*-\s*Revin.*?qualified.*?$|^\s*-\s*.*?post-graduate.*?$`

(re.I|re.M, `re.findall`, source line 87).  Both alternatives share the
deterministic `^\s*-\s*` prefix; the first then needs `Revin` exactly at
the end of the whitespace run and `qualified` later on that line, the
second needs `post-graduate` anywhere on that line; either way the match
spans from the line start to the trigger line's end.  The pattern has no
group, so `re.findall` returns the whole match. -/
def sectionAt (cs : List Char) (i : Nat) : Option (List Char × Nat) :=
  if isLineStart cs i then
    let r := cs.drop i
    let w0 := (r.takeWhile pyWS).length
    match (r.drop w0).head? with
    | some '-' =>
      let p := w0 + 1 + ((r.drop (w0 + 1)).takeWhile pyWS).length
      let line := (r.drop p).takeWhile (fun c => c ≠ '\n')
      let alt1 : Bool :=
        (matchLitCI "revin".data line).isSome && hasCI "qualified".data (line.drop 5)
      let alt2 : Bool := hasCI "post-graduate".data line
      if alt1 || alt2 then some (r.take (p + line.length), i + p + line.length)
      else none
    | _ => none
  else none

/-- `edu_section_lines` (source lines 86–89): stripped whole matches. -/
def eduSectionLines (text : String) : List String :=
  (findAllPos text.data.length (sectionAt text.data)).map fun g => pyStrip ⟨g⟩

/-- Order-preserving deduplication with a seen accumulator, mirroring the
`seen`-set loop of source lines 128–133.  It also stands in for
`list(set(...))` at source line 90: a CPython `set` only guarantees
membership, its iteration order being implementation defined, so the
embedding fixes the first-insertion order; no theorem below depends on
the enumeration order of that set. -/
def dedupGo : List String → List String → List String
  | _, [] => []
  | seen, a :: l => if a ∈ seen then dedupGo seen l else a :: dedupGo (a :: seen) l

/-- `candidate_lines = list(set(edu_lines + edu_section_lines))`
(source line 90). -/
def candidateLines (text : String) : List String :=
  dedupGo [] (eduLines text ++ eduSectionLines text)

/-- Character class `[A-Za-z0-9 .\-()']` of the institution patterns. -/
def instClass (c : Char) : Bool :=
  isAlphaC c || isDigitC c || c = ' ' || c = '.' || c = '-' ||
  c = '(' || c = ')' || c = aposC

/-- Attempt of `PRE ([A-Z][A-Za-z0-9 .\-()']+)` at position `i`, where
`PRE` is `from the ` or `at the ` (re.I makes `[A-Z]` any letter).  The
first class is one character, the second is greedy with no suffix
constraint, hence deterministic; it must match at least one character. -/
def instAt (pre : List Char) (cs : List Char) (i : Nat) : Option (List Char) :=
  match matchLitCI pre (cs.drop i) with
  | none => none
  | some r =>
    match r with
    | c :: rest =>
      if isAlphaC c then
        let g := rest.takeWhile instClass
        if g.isEmpty then none else some (c :: g)
      else none
    | [] => none

/-- Institution of a candidate line (source lines 94–96): `from the …`
first, and if that result is falsy (absent or empty), `at the …`. -/
def instOf (line : String) : Option String :=
  let atT : Option String :=
    (firstPos line.data.length (instAt "at the ".data line.data)).map fun g => pyStrip ⟨g⟩
  match (firstPos line.data.length (instAt "from the ".data line.data)).map
      (fun g => pyStrip ⟨g⟩) with
  | some s => if s ≠ "" then some s else atT
  | none => atT

/-- Attempt of `(?:in|,)\s*(\d{4})(?!\d)` at position `i`: `in`
(case-insensitive) is tried before `,`; after the greedy whitespace the
digit run must have length exactly four — with fewer digits `\d{4}`
fails, with more the lookahead after the four digits taken right after
the whitespace sees a digit. -/
def yearAt (cs : List Char) (i : Nat) : Option (List Char) :=
  let r := cs.drop i
  let afterSep : Option (List Char) :=
    match matchLitCI "in".data r with
    | some rest => some rest
    | none =>
      match r with
      | ',' :: rest => some rest
      | _ => none
  match afterSep with
  | none => none
  | some rest =>
    let r2 := rest.dropWhile pyWS
    let ds := r2.takeWhile isDigitC
    if ds.length = 4 then some ds else none

/-- Year string of a candidate line (source line 97). -/
def yearStrOf (line : String) : Option String :=
  (firstPos line.data.length (yearAt line.data)).map fun g => pyStrip ⟨g⟩

/-- Character class `[A-Za-z \-]` of the qualification group. -/
def qualClass (c : Char) : Bool :=
  isAlphaC c || c = ' ' || c = '-'

/-- Lazy group `([A-Za-z \-]+?)(?:\.|,|$)` (re.M): consume one class
character at a time, stopping as soon as the next character is `.`, `,`,
a newline, or the end of the subject; fail on a character that neither
extends the group nor terminates it. -/
def lazyQual (acc : List Char) : List Char → Option (List Char)
  | [] => none
  | c :: rest =>
    if qualClass c then
      match rest.head? with
      | none => some (acc ++ [c])
      | some t =>
        if t = '.' || t = ',' || t = '\n' then some (acc ++ [c])
        else lazyQual (acc ++ [c]) rest
    else none

/-- Attempt of `qualified as (?:an? )?([A-Za-z \-]+?)(?:\.|,|$)` at
position `i`.  The greedy optional article tries `an `, then `a `, then
nothing, re-attempting the lazy group at each resulting start. -/
def qualAt (cs : List Char) (i : Nat) : Option (List Char) :=
  match matchLitCI "qualified as ".data (cs.drop i) with
  | none => none
  | some r =>
    let att : List Char → Option (List Char) := fun pre =>
      match matchLitCI pre r with
      | some r2 => lazyQual [] r2
      | none => none
    match att "an ".data with
    | some g => some g
    | none =>
      match att "a ".data with
      | some g => some g
      | none => lazyQual [] r

/-- Qualification of a candidate line (source line 98). -/
def qualOf (line : String) : Option String :=
  (firstPos line.data.length (qualAt line.data)).map fun g => pyStrip ⟨g⟩

/-- Character class `[A-Za-z ]` of the explicit-degree pattern. -/
def candClass (c : Char) : Bool :=
  isAlphaC c || c = ' '

/-- Attempt of `(Candidate of [A-Za-z ]+ \(\d{4}\))` at position `i`
(`re.findall`, source line 119).  The greedy class run stops at the first
`(`; the engine then gives one character back to the literal space, so
the run must end in a space (deeper give-backs place a class character
where `\(` is required and always fail), and `(` plus exactly four digits
plus `)` must follow. -/
def candAt (cs : List Char) (i : Nat) : Option (List Char × Nat) :=
  match matchLitCI "candidate of ".data (cs.drop i) with
  | none => none
  | some r1 =>
    let run := r1.takeWhile candClass
    if 2 ≤ run.length && run.getLast? = some ' ' then
      match r1.drop run.length with
      | '(' :: r2 =>
        match pFixedDigits 4 r2 with
        | some (_, ')' :: _) =>
          some ((cs.drop i).take (13 + run.length + 6), i + 13 + run.length + 6)
        | _ => none
      | _ => none
    else none

/-- `explicit_degrees` (source lines 119–120): stripped whole matches of
the `Candidate of … (yyyy)` pattern. -/
def candDegrees (text : String) : List String :=
  (findAllPos text.data.length (candAt text.data)).map fun g => pyStrip ⟨g⟩

/-- The `_norm` cleaner (source lines 123–124): `re.sub(r"\s+", " ", s)`
collapses every whitespace run to a single space, then `str.strip()`. -/
def normWs (s : String) : String :=
  pyStrip ⟨s.data.foldr
    (fun c acc =>
      if pyWS c then
        match acc.head? with
        | some ' ' => acc
        | _ => ' ' :: acc
      else c :: acc) []⟩

/-- One education entry (`{"institution": …, "year": …, "qualification": …}`). -/
structure EduEntry where
  institution : Option String
  year : Option Int
  qualification : Option String
deriving DecidableEq

/-- Python truthiness of an optional string (`None` and `""` are falsy). -/
def truthyS : Option String → Bool
  | some s => s ≠ ""
  | none => false

/-- Python truthiness of an optional int (`None` and `0` are falsy). -/
def truthyI : Option Int → Bool
  | some n => n ≠ 0
  | none => false

/-- Truthiness test `any(entry.values())` of source line 105. -/
def entryTruthy (e : EduEntry) : Bool :=
  truthyS e.institution || truthyI e.year || truthyS e.qualification

/-- Degree-string synthesis of source lines 108–116: qualification plus
whichever of institution and year are truthy, in the preference order
`(inst, year)`, `(inst)`, `(year)`, bare.  The branch tests `inst and
year` / `elif year` and the f-strings use the captured year **string**
`year`, not the converted `int(year)` stored in the entry: a captured
`0000` is a truthy string and is interpolated with its leading zeros. -/
def mkDegree (q : String) (inst : Option String) (year : Option String) : String :=
  if truthyS inst && truthyS year then
    q ++ " (" ++ inst.getD "" ++ ", " ++ year.getD "" ++ ")"
  else if truthyS inst then q ++ " (" ++ inst.getD "" ++ ")"
  else if truthyS year then q ++ " (" ++ year.getD "" ++ ")"
  else q

/-- Degree contributed by a line, `if qual:` guarded (source line 108);
`year` is the captured year string of source line 97. -/
def degreeFromParts (inst : Option String) (year : Option String) (qual : Option String) :
    Option String :=
  match qual with
  | some q => if q ≠ "" then some (mkDegree q inst year) else none
  | none => none

/-- Year conversion of source line 102, `int(year) if year else None`,
with the `int()` call modelled exactly in `processLineE`; here the
(unreachable — see the safety theorem) failure collapses to `none`. -/
def yearIntOf (line : String) : Option Int :=
  match yearStrOf line with
  | some s =>
    if s ≠ "" then
      match pyIntE s with
      | Except.ok n => some n
      | Except.error _ => none
    else none
  | none => none

/-- Exception-faithful version of the year conversion: `int()` raises
`ValueError` on a malformed string and source line 102 does not catch
it. -/
def yearIntOfE (line : String) : Except Unit (Option Int) :=
  match yearStrOf line with
  | some s => if s ≠ "" then (pyIntE s).map some else Except.ok none
  | none => Except.ok none

/-- Per-candidate-line processing (source lines 93–116): the entry
(whose year is `int(year)`) and the optional degree string (built from
the year **string**). -/
def processLine (line : String) : EduEntry × Option String :=
  let inst := instOf line
  let y := yearIntOf line
  let q := qualOf line
  (⟨inst, y, q⟩, degreeFromParts inst (yearStrOf line) q)

/-- Exception-faithful per-line processing: the `int(year)` conversion
happens while the entry dict is built, before the degree branch runs. -/
def processLineE (line : String) : Except Unit (EduEntry × Option String) :=
  match yearIntOfE line with
  | Except.error e => Except.error e
  | Except.ok y =>
    Except.ok (⟨instOf line, y, qualOf line⟩,
      degreeFromParts (instOf line) (yearStrOf line) (qualOf line))

/-- The candidate-line loop: entries kept when `any(entry.values())`,
degrees kept when the qualification is truthy, in line order. -/
def collectLines : List String → List EduEntry × List String
  | [] => ([], [])
  | line :: rest =>
    let (e, d) := processLine line
    let (es, ds) := collectLines rest
    ((if entryTruthy e then [e] else []) ++ es, d.toList ++ ds)

/-- Exception-faithful candidate-line loop. -/
def collectLinesE : List String → Except Unit (List EduEntry × List String)
  | [] => Except.ok ([], [])
  | line :: rest =>
    match processLineE line with
    | Except.error e => Except.error e
    | Except.ok (e, d) =>
      match collectLinesE rest with
      | Except.error er => Except.error er
      | Except.ok (es, ds) =>
        Except.ok ((if entryTruthy e then [e] else []) ++ es, d.toList ++ ds)

/-- The degree list before deduplication: per-line degrees, then the
explicit `Candidate of …` degrees, each `_norm`-cleaned
(source lines 118–126). -/
def rawDegrees (text : String) : List String :=
  ((collectLines (candidateLines text)).2 ++ candDegrees text).map normWs

/-- Embedding of `_parse_degrees_and_education` (source lines 70–141). -/
def parseDegreesAndEducation (text : String) : List String × List EduEntry :=
  let entries := (collectLines (candidateLines text)).1
  (dedupGo [] (rawDegrees text),
   entries.filter fun e =>
     e.institution.isSome || e.year.isSome || e.qualification.isSome)

/-- Exception-faithful `_parse_degrees_and_education`. -/
def parseDegreesAndEducationE (text : String) : Except Unit (List String × List EduEntry) :=
  match collectLinesE (candidateLines text) with
  | Except.error e => Except.error e
  | Except.ok (entries, lineDegs) =>
    Except.ok (dedupGo [] ((lineDegs ++ candDegrees text).map normWs),
      entries.filter fun e =>
        e.institution.isSome || e.year.isSome || e.qualification.isSome)

/-! ### Occupations, interests, and the top-level profile -/

/-- Python `str.split(",")`: split at every comma, keeping empty parts. -/
def splitOnComma (l : List Char) : List (List Char) :=
  l.foldr
    (fun c acc =>
      if c = ',' then [] :: acc
      else
        match acc with
        | h :: t => (c :: h) :: t
        | [] => [[c]])
    [[]]

/-- Occupations (source lines 145–148): the value of the first
`Occupation(s):` labelled line, split on commas, each token stripped and
kept only if non-empty; a falsy line value (absent, or stripping to the
empty string) yields the empty list. -/
def occupationsOf (text : String) : List String :=
  match occLine text with
  | some s =>
    if s = "" then []
    else
      (splitOnComma s.data).filterMap fun o =>
        let t := pyStrip ⟨o⟩
        if t = "" then none else some t
  | none => []

/-- Is the previous character compatible with a `\b` before a word
character (start of subject, or a non-word character)? -/
def prevNonWord : Option Char → Bool
  | some p => !isWordC p
  | none => true

/-- Embedding of `re.split(r",|\band\b", s)` from `_clean_commas_list`
(source line 20; note: compiled without flags, so `and` is matched
case-sensitively).  The subject is scanned left to right; at each
position a `,` match is tried first, then `and` with word boundaries on
both sides; parts between matches are collected, empties included. -/
def splitCommaAnd (prev : Option Char) (acc : List Char) : List Char → List (List Char)
  | [] => [acc.reverse]
  | ',' :: rest => acc.reverse :: splitCommaAnd (some ',') [] rest
  | 'a' :: 'n' :: 'd' :: r2 =>
    if prevNonWord prev && prevNonWord r2.head? then
      acc.reverse :: splitCommaAnd (some 'd') [] r2
    else splitCommaAnd (some 'a') ('a' :: acc) ('n' :: 'd' :: r2)
  | c :: rest => splitCommaAnd (some c) (c :: acc) rest

/-- Embedding of `_clean_commas_list` (source lines 18–21): split on
commas and bounded `and`, strip `" .;:"` from each part, and keep
non-empty results (the comprehension keeps `p` only when both `p` and
`p.strip(" .;:")` are truthy). -/
def cleanCommasList (s : String) : List String :=
  (splitCommaAnd none [] s.data).filterMap fun p =>
    if p.isEmpty then none
    else
      let t := stripPunct ⟨p⟩
      if t = "" then none else some t

/-- Attempt of `\benjoys\s+([^.\n]+)` (re.I|re.M) at position `i`: a word
boundary before `enjoys`, then at least one whitespace character (tried
longest first, shortest last), then the greedy `[^.\n]+`, which must be
non-empty and has no suffix constraint. -/
def enjoysAt (cs : List Char) (i : Nat) : Option (List Char) :=
  let bOK : Bool := i = 0 || prevNonWord ((cs.drop (i - 1)).head?)
  if bOK then
    match matchLitCI "enjoys".data (cs.drop i) with
    | none => none
    | some r =>
      let mw := (r.takeWhile pyWS).length
      if mw = 0 then none
      else
        (List.range mw).findSome? fun k =>
          let g := (r.drop (mw - k)).takeWhile fun c => c ≠ '.' && c ≠ '\n'
          if g.isEmpty then none else some g
  else none

/-- Group 1 of the first `enjoys …` match, stripped (`_extract_first`,
source line 157). -/
def enjoysRaw (text : String) : Option String :=
  (firstPos text.data.length (enjoysAt text.data)).map fun g => pyStrip ⟨g⟩

/-- Interests (source line 158): `_clean_commas_list(enjoys)` when the
extracted text is truthy, else the empty list. -/
def interestsOf (text : String) : List String :=
  match enjoysRaw text with
  | some s => if s = "" then [] else cleanCommasList s
  | none => []

/-- The extraction result of `parse_astronaut_profile` (source lines
167–175).  Every list field is a total `List` value and every scalar
optional field an `Option`, as in the returned dict. -/
structure Profile where
  degrees : List String
  education : List EduEntry
  occupations : List String
  time_in_space : Option String
  interests : List String
  nationality : Option String
  age : Option Int
deriving DecidableEq

/-- Embedding of `parse_astronaut_profile` (source lines 143–175).
`date.today()` is passed explicitly as `today`; it is used only by the
age fallback. -/
def parseProfile (today : PyDate) (text : String) : Profile :=
  let de := parseDegreesAndEducation text
  let birth := parseBirthdate text
  { degrees := de.1
    education := de.2
    occupations := occupationsOf text
    time_in_space := tisLine text
    interests := interestsOf text
    nationality := natLine text
    age := parseAge text birth today }

/-- Exception-faithful `parse_astronaut_profile`: the only operation
whose exception is not caught inside the extractor is the `int(year)`
call at source line 102, threaded through
`parseDegreesAndEducationE`. -/
def parseProfileE (today : PyDate) (text : String) : Except Unit Profile :=
  match parseDegreesAndEducationE text with
  | Except.error e => Except.error e
  | Except.ok de =>
    let birth := parseBirthdate text
    Except.ok
      { degrees := de.1
        education := de.2
        occupations := occupationsOf text
        time_in_space := tisLine text
        interests := interestsOf text
        nationality := natLine text
        age := parseAge text birth today }

/-! ### Helper lemmas -/

theorem findSome?_exists {α β : Type} (f : α → Option β) :
    ∀ (l : List α) (b : β), l.findSome? f = some b → ∃ a, a ∈ l ∧ f a = some b := by
  intro l
  induction l with
  | nil => intro b h; simp [List.findSome?] at h
  | cons a as ih =>
    intro b h
    rw [List.findSome?] at h
    cases hfa : f a with
    | some c =>
      rw [hfa] at h
      exact ⟨a, List.mem_cons_self a as, hfa.trans h⟩
    | none =>
      rw [hfa] at h
      obtain ⟨x, hx, hfx⟩ := ih b h
      exact ⟨x, List.mem_cons_of_mem a hx, hfx⟩

theorem firstPos_exists {α : Type} (n : Nat) (f : Nat → Option α) (b : α)
    (h : firstPos n f = some b) : ∃ i, i < n ∧ f i = some b := by
  obtain ⟨i, hi, hfi⟩ := findSome?_exists f (List.range n) b h
  exact ⟨i, List.mem_range.mp hi, hfi⟩

theorem mem_dedupGo (a : String) :
    ∀ (l seen : List String), a ∈ dedupGo seen l ↔ a ∈ l ∧ a ∉ seen := by
  intro l
  induction l with
  | nil => intro seen; simp [dedupGo]
  | cons x xs ih =>
    intro seen
    by_cases hx : x ∈ seen
    · rw [dedupGo, if_pos hx, ih seen]
      simp only [List.mem_cons]
      constructor
      · rintro ⟨h1, h2⟩; exact ⟨Or.inr h1, h2⟩
      · rintro ⟨h1 | h1, h2⟩
        · subst h1; exact absurd hx h2
        · exact ⟨h1, h2⟩
    · rw [dedupGo, if_neg hx]
      simp only [List.mem_cons]
      rw [ih (x :: seen)]
      simp only [List.mem_cons]
      constructor
      · rintro (rfl | ⟨h1, h2⟩)
        · exact ⟨Or.inl rfl, hx⟩
        · exact ⟨Or.inr h1, fun hs => h2 (Or.inr hs)⟩
      · rintro ⟨h1 | h1, h2⟩
        · exact Or.inl h1
        · by_cases hax : a = x
          · exact Or.inl hax
          · refine Or.inr ⟨h1, fun hs => ?_⟩
            rcases hs with h | h
            · exact hax h
            · exact h2 h

theorem sublist_dedupGo : ∀ (l seen : List String), List.Sublist (dedupGo seen l) l := by
  intro l
  induction l with
  | nil => intro seen; simp [dedupGo]
  | cons x xs ih =>
    intro seen
    by_cases hx : x ∈ seen
    · simp only [dedupGo, if_pos hx]
      exact (ih seen).cons x
    · simp only [dedupGo, if_neg hx]
      exact (ih (x :: seen)).cons₂ x

theorem nodup_dedupGo : ∀ (l seen : List String), (dedupGo seen l).Nodup := by
  intro l
  induction l with
  | nil => intro seen; simp [dedupGo]
  | cons x xs ih =>
    intro seen
    by_cases hx : x ∈ seen
    · simp only [dedupGo, if_pos hx]; exact ih seen
    · simp only [dedupGo, if_neg hx]
      refine List.nodup_cons.mpr ⟨fun hmem => ?_, ih (x :: seen)⟩
      exact ((mem_dedupGo x xs (x :: seen)).mp hmem).2 (List.mem_cons_self x seen)

theorem digit_not_ws {c : Char} (h : isDigitC c = true) : pyWS c = false := by
  unfold isDigitC at h
  unfold pyWS
  simp only [Bool.and_eq_true, decide_eq_true_eq] at h
  simp only [Bool.or_eq_false_iff, decide_eq_false_iff_not]
  refine ⟨⟨⟨⟨⟨fun hc => ?_, fun hc => ?_⟩, fun hc => ?_⟩, fun hc => ?_⟩, fun hc => ?_⟩, fun hc => ?_⟩ <;>
    (subst hc; revert h; decide)

theorem stripList_digits {l : List Char} (h : l.all isDigitC = true) :
    stripList pyWS l = l := by
  have hall : ∀ c ∈ l, isDigitC c = true := List.all_eq_true.mp h
  have hdrop : ∀ (m : List Char), (∀ c ∈ m, isDigitC c = true) → m.dropWhile pyWS = m := by
    intro m hm
    cases m with
    | nil => rfl
    | cons c cs =>
      rw [List.dropWhile_cons_of_neg]
      rw [digit_not_ws (hm c (List.mem_cons_self c cs))]
      simp
  unfold stripList
  rw [hdrop l hall, hdrop l.reverse (fun c hc => hall c (List.mem_reverse.mp hc)),
    List.reverse_reverse]

theorem pyStrip_digits {l : List Char} (h : l.all isDigitC = true) :
    pyStrip ⟨l⟩ = ⟨l⟩ := by
  unfold pyStrip
  rw [show (String.mk l).data = l from rfl, stripList_digits h]

theorem digit_ne_plus {c : Char} (h : isDigitC c = true) : (c = '+') = False := by
  simp only [eq_iff_iff, iff_false]
  intro hc; subst hc; revert h; decide

theorem digit_ne_minus {c : Char} (h : isDigitC c = true) : (c = '-') = False := by
  simp only [eq_iff_iff, iff_false]
  intro hc; subst hc; revert h; decide

theorem pyIntE_digits {l : List Char} (hne : l ≠ []) (h : l.all isDigitC = true) :
    pyIntE ⟨l⟩ = Except.ok (Int.ofNat (digitsVal l)) := by
  unfold pyIntE
  rw [show (String.mk l).data = l from rfl, stripList_digits h]
  cases l with
  | nil => exact absurd rfl hne
  | cons c cs =>
    have hc : isDigitC c = true := by
      have := List.all_eq_true.mp h c (List.mem_cons_self c cs)
      exact this
    simp only [digit_ne_plus hc, digit_ne_minus hc, if_false]
    rw [if_neg]
    · simp
    · simp only [List.isEmpty_cons, h, Bool.not_true, Bool.or_false]
      simp

theorem yearAt_digits {cs : List Char} {i : Nat} {g : List Char}
    (h : yearAt cs i = some g) : g ≠ [] ∧ g.all isDigitC = true := by
  unfold yearAt at h
  dsimp only at h
  split at h
  · simp at h
  · split at h
    · rename_i hlen
      injection h with h2
      subst h2
      refine ⟨fun he => ?_, List.all_eq_true.mpr fun c hc => List.mem_takeWhile_imp hc⟩
      rw [he] at hlen
      simp at hlen
    · simp at h

theorem yearStrOf_digits {line s : String} (h : yearStrOf line = some s) :
    s.data ≠ [] ∧ s.data.all isDigitC = true := by
  unfold yearStrOf at h
  rw [Option.map_eq_some'] at h
  obtain ⟨g, hg, hs⟩ := h
  obtain ⟨i, _, hat⟩ := firstPos_exists _ _ _ hg
  obtain ⟨hne, hdig⟩ := yearAt_digits hat
  subst hs
  rw [pyStrip_digits hdig]
  exact ⟨hne, hdig⟩

theorem ageAt_digits {cs : List Char} {i : Nat} {g : List Char}
    (h : ageAt cs i = some g) : g ≠ [] ∧ g.all isDigitC = true := by
  unfold ageAt at h
  dsimp only at h
  split at h
  · simp at h
  · split at h
    · rename_i hcond
      injection h with h2
      subst h2
      refine ⟨fun he => ?_, List.all_eq_true.mpr fun c hc => List.mem_takeWhile_imp hc⟩
      rw [he] at hcond
      simp at hcond
    · simp at h

theorem ageRaw_digits {text s : String} (h : ageRaw text = some s) :
    s.data ≠ [] ∧ s.data.all isDigitC = true := by
  unfold ageRaw at h
  rw [Option.map_eq_some'] at h
  obtain ⟨g, hg, hs⟩ := h
  obtain ⟨i, _, hat⟩ := firstPos_exists _ _ _ hg
  obtain ⟨hne, hdig⟩ := ageAt_digits hat
  subst hs
  rw [pyStrip_digits hdig]
  exact ⟨hne, hdig⟩

theorem pyIntE_ok_of_raw {text s : String} (h : ageRaw text = some s) :
    pyIntE s = Except.ok (Int.ofNat (digitsVal s.data)) := by
  obtain ⟨hne, hdig⟩ := ageRaw_digits h
  exact pyIntE_digits hne hdig

theorem yearIntOfE_ok (line : String) : yearIntOfE line = Except.ok (yearIntOf line) := by
  unfold yearIntOfE yearIntOf
  cases hy : yearStrOf line with
  | none => rfl
  | some s =>
    obtain ⟨hne, hdig⟩ := yearStrOf_digits hy
    have hsne : s ≠ "" := fun he => hne (by rw [he])
    dsimp only
    rw [if_pos hsne, if_pos hsne, pyIntE_digits hne hdig]
    rfl

theorem processLineE_ok (line : String) : processLineE line = Except.ok (processLine line) := by
  unfold processLineE processLine
  rw [yearIntOfE_ok]

theorem collectLinesE_ok :
    ∀ lines : List String, collectLinesE lines = Except.ok (collectLines lines) := by
  intro lines
  induction lines with
  | nil => rfl
  | cons line rest ih =>
    rw [collectLinesE, processLineE_ok, ih, collectLines]

theorem parseDegEduE_ok (text : String) :
    parseDegreesAndEducationE text = Except.ok (parseDegreesAndEducation text) := by
  unfold parseDegreesAndEducationE parseDegreesAndEducation rawDegrees
  rw [collectLinesE_ok]

theorem filterMap_strip_eq (parts : List (List Char)) :
    (parts.filterMap fun o =>
      let t := pyStrip ⟨o⟩
      if t = "" then none else some t) =
    ((parts.map fun o => pyStrip ⟨o⟩).filter fun t => t ≠ "") := by
  induction parts with
  | nil => rfl
  | cons o os ih =>
    by_cases h : pyStrip ⟨o⟩ = ""
    · simp only [List.filterMap_cons, List.map_cons, List.filter_cons, h, ih]
      simp
    · simp only [List.filterMap_cons, List.map_cons, List.filter_cons, if_neg h, ih]
      simp [h]

theorem findSome?_eq_none_of {α β : Type} (f : α → Option β) :
    ∀ l : List α, (∀ a ∈ l, f a = none) → l.findSome? f = none := by
  intro l
  induction l with
  | nil => intro _; rfl
  | cons a as ih =>
    intro h
    rw [List.findSome?, h a (List.mem_cons_self a as)]
    exact ih fun x hx => h x (List.mem_cons_of_mem a hx)

theorem labeledAt_none {label : List Char} {valueAt : List Char → Option (List Char)}
    {cs : List Char} {i : Nat}
    (h : (isLineStart cs i &&
      (!((cs.drop i).takeWhile (fun c => c = '-')).isEmpty &&
        (matchLitCI label
          (((cs.drop i).drop ((cs.drop i).takeWhile (fun c => c = '-')).length).dropWhile
            pyWS)).isSome)) = false) :
    labeledAt label valueAt cs i = none := by
  unfold labeledAt
  by_cases hls : isLineStart cs i = true
  · rw [hls, Bool.true_and] at h
    simp only [hls, if_true]
    by_cases hy : ((cs.drop i).takeWhile (fun c => c = '-')).isEmpty = true
    · rw [if_pos hy]
    · rw [if_neg hy]
      rw [Bool.not_eq_true] at hy
      rw [hy, Bool.not_false, Bool.true_and] at h
      cases hm : matchLitCI label
          (((cs.drop i).drop ((cs.drop i).takeWhile (fun c => c = '-')).length).dropWhile pyWS) with
      | none => rfl
      | some rest => rw [hm] at h; simp at h
  · rw [Bool.not_eq_true] at hls
    simp only [hls]
    rfl

theorem extractLabeled_none {label : List Char} {valueAt : List Char → Option (List Char)}
    {text : String} (h : hyphenLabelOccurs label text = false) :
    extractLabeled label valueAt text = none := by
  unfold hyphenLabelOccurs at h
  rw [List.any_eq_false] at h
  unfold extractLabeled firstPos
  rw [Option.map_eq_none']
  apply findSome?_eq_none_of
  intro i hi
  apply labeledAt_none
  have := h i hi
  dsimp only at this
  rw [Bool.not_eq_true] at this
  exact this

/-! ### Claim theorems -/

/-- Reference date standing in for `date.today()` in concrete
evaluations. -/
def today0 : PyDate := ⟨2026, 10, 12⟩

set_option maxRecDepth 60000

/-- Claim C2 counterexample: an input consisting exactly of the line
`Occupation(s): Cosmonaut, Lieutenant Colonel, Russian Air Force` —
hence containing that line — yields an **empty** occupations list,
because the pattern `^-+\s*Occupation\(s\):…` requires one or more
hyphens at the start of the line. -/
theorem claim_C2_counterexample :
    (parseProfile today0 "Occupation(s): Cosmonaut, Lieutenant Colonel, Russian Air Force").occupations
      = [] ∧
    (parseProfile today0 "Occupation(s): Cosmonaut, Lieutenant Colonel, Russian Air Force").occupations
      ≠ ["Cosmonaut", "Lieutenant Colonel", "Russian Air Force"] := by
  constructor
  · decide
  · decide

/-- Claim C2 (amended): when the first occupation-labelled line — one or
more leading hyphens, optional whitespace, `Occupation(s):` — carries the
value `Cosmonaut, Lieutenant Colonel, Russian Air Force`, the
occupations field is exactly those three entries; in general the first
labelled value is split on commas into stripped non-empty tokens, and
with no labelled line the occupations list is empty. -/
theorem claim_C2_occupations (today : PyDate) (text : String) :
    (occLine text = some "Cosmonaut, Lieutenant Colonel, Russian Air Force" →
      (parseProfile today text).occupations =
        ["Cosmonaut", "Lieutenant Colonel", "Russian Air Force"]) ∧
    (∀ s, occLine text = some s →
      (parseProfile today text).occupations =
        ((splitOnComma s.data).map fun o => pyStrip ⟨o⟩).filter fun t => t ≠ "") ∧
    (occLine text = none → (parseProfile today text).occupations = []) := by
  refine ⟨?_, ?_, ?_⟩
  · intro h
    show occupationsOf text = _
    unfold occupationsOf
    rw [h]
    decide
  · intro s h
    show occupationsOf text = _
    unfold occupationsOf
    rw [h]
    by_cases hs : s = ""
    · subst hs
      decide
    · dsimp only
      rw [if_neg hs]
      exact filterMap_strip_eq _
  · intro h
    show occupationsOf text = _
    unfold occupationsOf
    rw [h]

/-- Witness for the amended claim C2 at a hyphenated labelled line. -/
theorem claim_C2_occupations_witness :
    (parseProfile today0
      "- Occupation(s): Cosmonaut, Lieutenant Colonel, Russian Air Force").occupations =
      ["Cosmonaut", "Lieutenant Colonel", "Russian Air Force"] :=
  (claim_C2_occupations today0
    "- Occupation(s): Cosmonaut, Lieutenant Colonel, Russian Air Force").1 (by decide)

/-- Claim C3: the extractor never raises for any input.  The
exception-faithful embedding `parseProfileE` — whose single uncaught
failure point is the `int(year)` call of source line 102, every
`strptime` and the explicit-age `int` being wrapped in
`try/except ValueError` — returns `Except.ok` with the value of the
total embedding on every text, because the year capture is always a
non-empty digit string. -/
theorem claim_C3_never_raises (today : PyDate) (text : String) :
    parseProfileE today text = Except.ok (parseProfile today text) := by
  unfold parseProfileE parseProfile
  rw [parseDegEduE_ok]

/-- Claim C10 counterexample: in the input `-\nNationality: Russian` the
label `Nationality:` sits at the start of a line with no leading hyphen
on that line, yet the nationality field is `Russian`, not null — the
`\s*` after the hyphen run of the **previous** line crosses the line
break. -/
theorem claim_C10_counterexample :
    "-\nNationality: Russian" = "-\n" ++ "Nationality: Russian" ∧
    (parseProfile today0 "-\nNationality: Russian").nationality = some "Russian" ∧
    (parseProfile today0 "-\nNationality: Russian").nationality ≠ none := by
  refine ⟨by decide, by decide, by decide⟩

/-- Claim C10 (amended): each labelled extraction fires only at a
position where a line starts with one or more hyphens followed by
optional whitespace (possibly spanning line breaks) and then the label;
on every input with no such occurrence the occupations list is empty and
nationality and time in space are null. -/
theorem claim_C10_labels (today : PyDate) (text : String) :
    (hyphenLabelOccurs "occupation(s):".data text = false →
      (parseProfile today text).occupations = []) ∧
    (hyphenLabelOccurs "nationality:".data text = false →
      (parseProfile today text).nationality = none) ∧
    (hyphenLabelOccurs "time in space:".data text = false →
      (parseProfile today text).time_in_space = none) := by
  refine ⟨?_, ?_, ?_⟩
  · intro h
    show occupationsOf text = _
    unfold occupationsOf
    have hocc : occLine text = none := extractLabeled_none h
    rw [hocc]
  · intro h
    show natLine text = none
    exact extractLabeled_none h
  · intro h
    show tisLine text = none
    exact extractLabeled_none h

/-- Witness for the amended claim C10: labels present only at line starts
without hyphens leave all three fields at their defaults. -/
theorem claim_C10_labels_witness :
    (parseProfile today0 "Occupation(s): x\nNationality: y\nTime in space: z").occupations = [] ∧
    (parseProfile today0 "Occupation(s): x\nNationality: y\nTime in space: z").nationality = none ∧
    (parseProfile today0 "Occupation(s): x\nNationality: y\nTime in space: z").time_in_space = none :=
  ⟨(claim_C10_labels today0 "Occupation(s): x\nNationality: y\nTime in space: z").1 (by decide),
   (claim_C10_labels today0 "Occupation(s): x\nNationality: y\nTime in space: z").2.1 (by decide),
   (claim_C10_labels today0 "Occupation(s): x\nNationality: y\nTime in space: z").2.2 (by decide)⟩

/-- Claim C1 (code-bug evidence): on the bullet line
`- He graduated from the Moscow Institute of Electronic Technology in 1989.`
the claim predicts an education entry (an institution follows `from the`
and a four-digit year follows `in`), but `_extract_all` returns group 1
of the candidate pattern — the trigger word `graduated` — instead of the
line, the field extraction on that word finds nothing, and both the
education list and the degrees list are empty. -/
theorem claim_C1_code_evaluation :
    candidateLines
      "- He graduated from the Moscow Institute of Electronic Technology in 1989." =
      ["graduated"] ∧
    (parseProfile today0
      "- He graduated from the Moscow Institute of Electronic Technology in 1989.").education
      = [] ∧
    (parseProfile today0
      "- He graduated from the Moscow Institute of Electronic Technology in 1989.").degrees
      = [] := by
  refine ⟨by decide, by decide, by decide⟩

/-- Claim C4 (code-bug evidence): the ISO-in-parens pattern does win on
`Born: (1966-01-12) January 12, 1966`; but the second stage cannot parse
an ordinary `Month D, YYYY` date: `MONTHS` is spliced into its group
unparenthesized, so the pattern matches the bare month name `January`,
`strptime` rejects it, the `D Month YYYY` pattern does not apply, and
`Born: January 12, 1966` — a form the function's own docstring lists as
accepted — yields no birth date at all. -/
theorem claim_C4_code_evaluation :
    parseBirthdate "Born: (1966-01-12) January 12, 1966" = some ⟨1966, 1, 12⟩ ∧
    mdyRaw "Born: January 12, 1966" = some "January" ∧
    stpBMDY "January" = Except.error () ∧
    parseBirthdate "Born: January 12, 1966" = none := by
  refine ⟨by decide, by decide, by rfl, by decide⟩

/-- Claim C5 counterexample: the input `(age 1) (age 59)` contains
`(age 59)` and no birth date, yet the age resolves to 1 — the leftmost
`(age N)` annotation wins. -/
theorem claim_C5_counterexample :
    "(age 1) (age 59)" = "(age 1) " ++ "(age 59)" ∧
    parseBirthdate "(age 1) (age 59)" = none ∧
    (parseProfile today0 "(age 1) (age 59)").age = some 1 ∧
    (parseProfile today0 "(age 1) (age 59)").age ≠ some 59 := by
  refine ⟨by decide, by decide, by decide, by decide⟩

/-- Claim C5 (amended): the age prefers the first explicit `(age N)`
annotation, whose 1–3 captured digits always convert; otherwise, with a
birth date, it is the whole-years difference with the month/day cutoff
correction; otherwise null.  In particular a first annotation of
`(age 59)` yields 59 whatever the rest of the text. -/
theorem claim_C5_age (today : PyDate) (text : String) :
    (∀ s, ageRaw text = some s →
      (parseProfile today text).age = some (Int.ofNat (digitsVal s.data))) ∧
    (ageRaw text = none → ∀ b, parseBirthdate text = some b →
      (parseProfile today text).age =
        some (today.year - b.year -
          (if today.month < b.month ∨ (today.month = b.month ∧ today.day < b.day)
           then 1 else 0))) ∧
    (ageRaw text = none → parseBirthdate text = none →
      (parseProfile today text).age = none) ∧
    (ageRaw text = some "59" → (parseProfile today text).age = some 59) := by
  have h1 : ∀ s, ageRaw text = some s →
      (parseProfile today text).age = some (Int.ofNat (digitsVal s.data)) := by
    intro s h
    show parseAge text (parseBirthdate text) today = _
    obtain ⟨hne, hdig⟩ := ageRaw_digits h
    have hp : pyIntE s = Except.ok (Int.ofNat (digitsVal s.data)) := pyIntE_digits hne hdig
    unfold parseAge
    rw [h]
    dsimp only
    rw [hp]
  refine ⟨h1, ?_, ?_, ?_⟩
  · intro h b hb
    show parseAge text (parseBirthdate text) today = _
    unfold parseAge
    rw [h, hb]
    rfl
  · intro h hb
    show parseAge text (parseBirthdate text) today = _
    unfold parseAge
    rw [h, hb]
    rfl
  · intro h
    rw [h1 "59" h]
    decide

/-- Witness for the amended claim C5 at a concrete annotation. -/
theorem claim_C5_age_witness :
    (parseProfile today0 "Cosmonaut (age 59)").age = some 59 :=
  (claim_C5_age today0 "Cosmonaut (age 59)").2.2.2 (by decide)

/-- Claim C6 counterexample: an input containing the sentence
`He enjoys tourism, skiing, water skiing, and balloon flights.` after an
earlier `enjoys` yields the interests of the **first** occurrence
(`chess`), not the listed four. -/
theorem claim_C6_counterexample :
    "She enjoys chess. He enjoys tourism, skiing, water skiing, and balloon flights." =
      "She enjoys chess. " ++ "He enjoys tourism, skiing, water skiing, and balloon flights." ∧
    (parseProfile today0
      "She enjoys chess. He enjoys tourism, skiing, water skiing, and balloon flights.").interests
      = ["chess"] ∧
    (parseProfile today0
      "She enjoys chess. He enjoys tourism, skiing, water skiing, and balloon flights.").interests
      ≠ ["tourism", "skiing", "water skiing", "balloon flights"] := by
  refine ⟨by decide, by decide, by decide⟩

/-- Claim C6 (amended): the interests come from the free text after the
**first** occurrence of the word `enjoys`, up to the next period or line
break, split on commas and the standalone word `and`, each phrase
stripped of surrounding spaces, periods, semicolons and colons, empty
phrases dropped, multi-word phrases kept whole; in particular a first
occurrence followed by `tourism, skiing, water skiing, and balloon
flights.` yields those four interests. -/
theorem claim_C6_interests (today : PyDate) (text : String) :
    (∀ s, enjoysRaw text = some s → s ≠ "" →
      (parseProfile today text).interests = cleanCommasList s) ∧
    (enjoysRaw text = none → (parseProfile today text).interests = []) ∧
    (enjoysRaw text = some "tourism, skiing, water skiing, and balloon flights" →
      (parseProfile today text).interests =
        ["tourism", "skiing", "water skiing", "balloon flights"]) := by
  refine ⟨?_, ?_, ?_⟩
  · intro s h hs
    show interestsOf text = _
    unfold interestsOf
    rw [h]
    dsimp only
    rw [if_neg hs]
  · intro h
    show interestsOf text = _
    unfold interestsOf
    rw [h]
  · intro h
    show interestsOf text = _
    unfold interestsOf
    rw [h]
    decide

/-- Witness for the amended claim C6 at the concrete sentence. -/
theorem claim_C6_interests_witness :
    (parseProfile today0
      "He enjoys tourism, skiing, water skiing, and balloon flights.").interests =
      ["tourism", "skiing", "water skiing", "balloon flights"] :=
  (claim_C6_interests today0
    "He enjoys tourism, skiing, water skiing, and balloon flights.").2.2 (by decide)

/-- Claim C7: each candidate line with a truthy qualification
contributes the degree string `q (inst, year)`, `q (inst)`, `q (year)` or
bare `q`, in that preference order by truthiness of the parts; the final
degrees list is the whitespace-normalized raw list deduplicated
preserving first occurrence: it has no duplicates, is a sublist of the
raw list, and holds exactly the raw entries — so two candidate lines
synthesizing the same string leave a single entry. -/
theorem claim_C7_degrees (today : PyDate) (text : String) :
    ((parseProfile today text).degrees).Nodup ∧
    (parseProfile today text).degrees = dedupGo [] (rawDegrees text) ∧
    List.Sublist (parseProfile today text).degrees (rawDegrees text) ∧
    (∀ d, d ∈ (parseProfile today text).degrees ↔ d ∈ rawDegrees text) ∧
    (∀ q s ys, q ≠ "" → s ≠ "" → ys ≠ "" →
      degreeFromParts (some s) (some ys) (some q) =
        some (q ++ " (" ++ s ++ ", " ++ ys ++ ")")) ∧
    (∀ q s, q ≠ "" → s ≠ "" →
      degreeFromParts (some s) none (some q) = some (q ++ " (" ++ s ++ ")")) ∧
    (∀ q ys, q ≠ "" → ys ≠ "" →
      degreeFromParts none (some ys) (some q) = some (q ++ " (" ++ ys ++ ")")) ∧
    (∀ q, q ≠ "" → degreeFromParts none none (some q) = some q) := by
  have hdeg : (parseProfile today text).degrees = dedupGo [] (rawDegrees text) := rfl
  refine ⟨?_, hdeg, ?_, ?_, ?_, ?_, ?_, ?_⟩
  · rw [hdeg]; exact nodup_dedupGo _ _
  · rw [hdeg]; exact sublist_dedupGo _ _
  · intro d
    rw [hdeg, mem_dedupGo d (rawDegrees text) []]
    simp
  · intro q s ys hq hs hy
    simp [degreeFromParts, mkDegree, truthyS, hq, hs, hy]
  · intro q s hq hs
    simp [degreeFromParts, mkDegree, truthyS, hq, hs]
  · intro q ys hq hy
    simp [degreeFromParts, mkDegree, truthyS, hq, hy]
  · intro q hq
    simp [degreeFromParts, mkDegree, truthyS, hq]

/-- Witness for claim C7: two distinct candidate lines both synthesizing
the degree `teacher` leave a single, duplicate-free entry, and the full
format is exercised on concrete parts. -/
theorem claim_C7_degrees_witness :
    ((parseProfile today0
      "- Revin qualified as a teacher.\n- Revin also qualified as a teacher.").degrees).Nodup ∧
    (parseProfile today0
      "- Revin qualified as a teacher.\n- Revin also qualified as a teacher.").degrees =
      ["teacher"] ∧
    degreeFromParts (some "MIET") (some "1989") (some "Engineer") =
      some "Engineer (MIET, 1989)" :=
  ⟨(claim_C7_degrees today0
      "- Revin qualified as a teacher.\n- Revin also qualified as a teacher.").1,
   by decide,
   (claim_C7_degrees today0
      "- Revin qualified as a teacher.\n- Revin also qualified as a teacher.").2.2.2.2.1
     "Engineer" "MIET" "1989" (by decide) (by decide) (by decide)⟩

/-- Claim C8: every list field of the result is a total `List` value of
the `Profile` structure (never null by construction), and each scalar
optional field is null exactly when its extraction finds nothing:
nationality and time-in-space iff their labelled patterns have no match
anywhere in the text, and age iff there is neither an `(age N)`
annotation nor a resolved birth date (an annotation always yields an
age, since its captured digits always convert). -/
theorem claim_C8_fields (today : PyDate) (text : String) :
    ((parseProfile today text).nationality = none ↔
      firstPos text.data.length (labeledAt "nationality:".data valueNat text.data) = none) ∧
    ((parseProfile today text).time_in_space = none ↔
      firstPos text.data.length (labeledAt "time in space:".data valueEOL text.data) = none) ∧
    ((parseProfile today text).age = none ↔
      ageRaw text = none ∧ parseBirthdate text = none) := by
  refine ⟨?_, ?_, ?_⟩
  · show natLine text = none ↔ _
    unfold natLine extractLabeled
    exact Option.map_eq_none'
  · show tisLine text = none ↔ _
    unfold tisLine extractLabeled
    exact Option.map_eq_none'
  · show parseAge text (parseBirthdate text) today = none ↔ _
    cases h : ageRaw text with
    | some s =>
      obtain ⟨hne, hdig⟩ := ageRaw_digits h
      have hp : pyIntE s = Except.ok (Int.ofNat (digitsVal s.data)) := pyIntE_digits hne hdig
      unfold parseAge
      rw [h]
      dsimp only
      rw [hp]
      simp
    | none =>
      unfold parseAge
      rw [h]
      cases hb : parseBirthdate text <;> simp

/-- Claim C9: with the reference date passed explicitly, extraction is a
pure function of its input — every field except the age is the same for
any two reference dates, and when an explicit `(age N)` annotation is
present or no birth date resolves, the entire results coincide; only the
age computed from a birth date alone depends on the date of
execution. -/
theorem claim_C9_determinism (text : String) (t1 t2 : PyDate) :
    ((parseProfile t1 text).degrees = (parseProfile t2 text).degrees ∧
     (parseProfile t1 text).education = (parseProfile t2 text).education ∧
     (parseProfile t1 text).occupations = (parseProfile t2 text).occupations ∧
     (parseProfile t1 text).time_in_space = (parseProfile t2 text).time_in_space ∧
     (parseProfile t1 text).interests = (parseProfile t2 text).interests ∧
     (parseProfile t1 text).nationality = (parseProfile t2 text).nationality) ∧
    ((ageRaw text ≠ none ∨ parseBirthdate text = none) →
      parseProfile t1 text = parseProfile t2 text) := by
  refine ⟨⟨rfl, rfl, rfl, rfl, rfl, rfl⟩, ?_⟩
  intro h
  have hage : parseAge text (parseBirthdate text) t1 =
      parseAge text (parseBirthdate text) t2 := by
    rcases h with h | h
    · cases ha : ageRaw text with
      | none => exact absurd ha h
      | some s =>
        obtain ⟨hne, hdig⟩ := ageRaw_digits ha
        have hp : pyIntE s = Except.ok (Int.ofNat (digitsVal s.data)) := pyIntE_digits hne hdig
        unfold parseAge
        rw [ha]
        dsimp only
        rw [hp]
    · unfold parseAge
      rw [h]
      cases ageRaw text with
      | none => rfl
      | some s => cases pyIntE s <;> rfl
  show parseProfile t1 text = parseProfile t2 text
  unfold parseProfile
  simp only [Profile.mk.injEq]
  exact ⟨trivial, trivial, trivial, trivial, trivial, trivial, hage⟩

/-- Witness for claim C9 at an explicit-age input and two distinct
reference dates. -/
theorem claim_C9_determinism_witness :
    parseProfile ⟨2026, 10, 12⟩ "Cosmonaut (age 59)" =
      parseProfile ⟨2030, 1, 1⟩ "Cosmonaut (age 59)" :=
  (claim_C9_determinism "Cosmonaut (age 59)" ⟨2026, 10, 12⟩ ⟨2030, 1, 1⟩).2
    (Or.inl (by decide))

end Scraping
